import Mathlib

/-!
Verification of `scripts/download_videos.py` (sf20k repository).

The script builds a work list from a dataset of (video_id, video_url)
records, dispatches one `yt-dlp` subprocess per work-list row across a
thread pool, classifies each subprocess result into an outcome
(success / failed / skipped), aggregates the outcomes into counts and a
failed-video dictionary, and optionally persists the failures to a CSV.

We embed the script shallowly: strings are `List Char`; the filesystem,
the dataset and the subprocess runner are oracle parameters; pandas /
`os.path` operations used by the script are modelled faithfully below.
-/

namespace DownloadVideos

/-- The whitespace characters removed by Python `str.strip()`. -/
def pyIsSpace (c : Char) : Bool :=
  c = ' ' || c = '\t' || c = '\n' || c = '\r' || c = '\x0B' || c = '\x0C'

/-- Python `str.strip()`: drop leading and trailing whitespace. -/
def pyStrip (s : List Char) : List Char :=
  ((s.dropWhile pyIsSpace).reverse.dropWhile pyIsSpace).reverse

/-- Python `str.lower()`, character by character. -/
def pyLower (s : List Char) : List Char :=
  s.map Char.toLower

/-- Python `needle in haystack` on strings: contiguous substring containment. -/
def containsSub (needle : List Char) : List Char → Bool
  | [] => needle.isEmpty
  | c :: rest => needle.isPrefixOf (c :: rest) || containsSub needle rest

/-- Python `s.split(sep)` for a one-character separator
(`''.split(sep) = ['']`, matching `List.splitOn`). -/
def pySplitOn (sep : Char) (s : List Char) : List (List Char) :=
  s.splitOn sep

/-- One record of the reference dataset, projected (as the script does)
to the two columns `video_id` and `video_url`. -/
structure Row where
  video_id : List Char
  video_url : List Char
deriving DecidableEq, Repr

/-- Helper for `dropDuplicates`: keep a row only when its
(video_id, video_url) pair has not been seen before. -/
def dropDupAux (seen : List Row) : List Row → List Row
  | [] => []
  | r :: rs => if r ∈ seen then dropDupAux seen rs else r :: dropDupAux (r :: seen) rs

/-- `df[['video_id', 'video_url']].drop_duplicates()`: keep the first
occurrence of each (video_id, video_url) pair. -/
def dropDuplicates (rows : List Row) : List Row :=
  dropDupAux [] rows

theorem mem_dropDupAux (seen : List Row) (l : List Row) (r : Row) :
    r ∈ dropDupAux seen l ↔ r ∈ l ∧ r ∉ seen := by
  induction l generalizing seen with
  | nil => simp [dropDupAux]
  | cons a t ih =>
    by_cases h : a ∈ seen
    · rw [dropDupAux, if_pos h, ih]
      constructor
      · rintro ⟨ht, hs⟩
        exact ⟨List.mem_cons_of_mem a ht, hs⟩
      · rintro ⟨hat, hs⟩
        rcases List.mem_cons.mp hat with rfl | ht
        · exact absurd h hs
        · exact ⟨ht, hs⟩
    · rw [dropDupAux, if_neg h]
      simp only [List.mem_cons, ih, List.mem_cons, not_or]
      constructor
      · rintro (rfl | ⟨ht, hra, hs⟩)
        · exact ⟨Or.inl rfl, h⟩
        · exact ⟨Or.inr ht, hs⟩
      · rintro ⟨rfl | ht, hs⟩
        · exact Or.inl rfl
        · by_cases hra : r = a
          · exact Or.inl hra
          · exact Or.inr ⟨ht, hra, hs⟩

theorem nodup_dropDupAux (seen : List Row) (l : List Row) :
    (dropDupAux seen l).Nodup := by
  induction l generalizing seen with
  | nil => simp [dropDupAux]
  | cons a t ih =>
    by_cases h : a ∈ seen
    · rw [dropDupAux, if_pos h]
      exact ih seen
    · rw [dropDupAux, if_neg h]
      refine List.nodup_cons.mpr ⟨?_, ih (a :: seen)⟩
      intro hmem
      exact ((mem_dropDupAux _ _ _).mp hmem).2 (List.mem_cons_self a seen)

theorem mem_dropDuplicates (l : List Row) (r : Row) :
    r ∈ dropDuplicates l ↔ r ∈ l := by
  rw [dropDuplicates, mem_dropDupAux]
  simp

theorem nodup_dropDuplicates (l : List Row) : (dropDuplicates l).Nodup :=
  nodup_dropDupAux [] l

/-- Captured result of a subprocess invocation (`subprocess.run` with
`capture_output=True, text=True`): the exit code and the stderr text. -/
structure SubprocResult where
  returncode : Int
  stderr : List Char
deriving DecidableEq, Repr

/-- Test whether a stderr line contains one of the failure keywords
`error`, `unavailable`, `private`, `deleted`, case-insensitively. -/
def hasErrorKeyword (line : List Char) : Bool :=
  let low := pyLower line
  containsSub "error".data low || containsSub "unavailable".data low ||
    containsSub "private".data low || containsSub "deleted".data low

/-- Test of the fallback loop: `line.strip() and not line.strip().startswith('[')`. -/
def fallbackLine (line : List Char) : Bool :=
  !(pyStrip line).isEmpty && !((pyStrip line).head? == some '[')

/-- First loop of `_extract_error_reason`: scan the lines (already reversed,
i.e. bottom-up) for one containing a failure keyword; return it stripped. -/
def scanKeyword : List (List Char) → Option (List Char)
  | [] => none
  | line :: rest =>
    if hasErrorKeyword line then some (pyStrip line) else scanKeyword rest

/-- Second loop of `_extract_error_reason`: scan (bottom-up) for a line whose
stripped form is non-empty and does not start with `[`; return it stripped
and truncated to 200 characters. -/
def scanFallback : List (List Char) → Option (List Char)
  | [] => none
  | line :: rest =>
    if fallbackLine line then some ((pyStrip line).take 200) else scanFallback rest

/-- Python truthiness of an optional string: `None` and `""` are falsy. -/
def pyFalsy : Option (List Char) → Bool
  | none => true
  | some s => s.isEmpty

/-- Shallow embedding of `_extract_error_reason(result)`. -/
def extract_error_reason (result : SubprocResult) : Option (List Char) :=
  if result.returncode = 0 then
    none
  else
    let er :=
      if result.stderr.isEmpty then
        none
      else
        let stderr_lines := pySplitOn '\n' (pyStrip result.stderr)
        let first := scanKeyword stderr_lines.reverse
        if pyFalsy first then scanFallback stderr_lines.reverse else first
    if pyFalsy er then some "Unknown error".data else er

/-- Model of `os.path.join` on two POSIX path components. -/
def pathJoin (a b : List Char) : List Char :=
  if b.head? = some '/' then b
  else if a.isEmpty || a.getLast? = some '/' then a ++ b
  else a ++ '/' :: b

/-- Content of a `--failed-videos-file` CSV together with its path:
the column names and the values of the `video_id` column (`none` models
a missing value removed by `dropna`). -/
structure FailedFile where
  path : List Char
  columns : List (List Char)
  video_id_values : List (Option (List Char))
deriving DecidableEq, Repr

/-- Parsed command-line arguments of the script. -/
structure Args where
  split : List Char
  video_dir : List Char
  resolution : Nat
  skip_existing : Bool
  silence_errors : Bool
  threads : Nat
  workers : Nat
  max_videos : Option Nat
  failed_videos_file : Option FailedFile
  cookies : Option (List Char)
deriving DecidableEq, Repr

/-- Format selector passed to yt-dlp via `-f`. -/
def formatSelector (resolution : Nat) : List Char :=
  "bestvideo[height<=".data ++ (Nat.repr resolution).data ++
    "]+bestaudio/best[height<=".data ++ (Nat.repr resolution).data ++ "]".data

/-- Command line built for one video (`cmd_args` in `download_video`): the
base arguments ending with the URL, then the optional silence flags, then
the optional cookies flag, in the order the script appends them. -/
def buildCmd (args : Args) (video_path video_url : List Char) : List (List Char) :=
  (["yt-dlp".data, "-S".data, "vcodec:h264,res,acodec:m4a".data,
    "-f".data, formatSelector args.resolution,
    "-o".data, video_path,
    "--concurrent-fragments".data, (Nat.repr args.threads).data,
    video_url]
   ++ (if args.silence_errors then ["--no-warnings".data, "--ignore-errors".data] else [])
   ++ (match args.cookies with
       | some c => ["--cookies".data, c]
       | none => []))

/-- Terminal classification of one task. -/
inductive Status where
  | success
  | failed
  | skipped
deriving DecidableEq, Repr, Inhabited

/-- Result tuple of `download_video`: (video_id, status, video_url, error_reason). -/
abbrev DLResult := List Char × Status × List Char × Option (List Char)

/-- Computed output path `os.path.join(video_dir, video_id + ".mp4")`. -/
def videoPath (video_dir : List Char) (row : Row) : List Char :=
  pathJoin video_dir (row.video_id ++ ".mp4".data)

/-- Shallow embedding of `download_video(row, video_dir, args)`, with the
filesystem existence test and the subprocess runner supplied as oracles. -/
def download_video (fsExists : List Char → Bool)
    (subproc : List (List Char) → SubprocResult)
    (video_dir : List Char) (args : Args) (row : Row) : DLResult :=
  let video_path := videoPath video_dir row
  if fsExists video_path && args.skip_existing then
    (row.video_id, Status.skipped, row.video_url, none)
  else
    let result := subproc (buildCmd args video_path row.video_url)
    if result.returncode = 0 then
      (row.video_id, Status.success, row.video_url, none)
    else
      (row.video_id, Status.failed, row.video_url, extract_error_reason result)

/-- Shallow embedding of `load_failed_videos_from_file`: a configuration
error when the `video_id` column is absent, else the non-null values of
that column (Python builds a set; we keep the list and use membership). -/
def load_failed_videos_from_file (f : FailedFile) :
    Except (List Char) (List (List Char)) :=
  if "video_id".data ∈ f.columns then
    Except.ok (f.video_id_values.filterMap id)
  else
    Except.error "CSV file must contain video_id column".data

/-- Work-list construction portion of `main`: project and deduplicate the
dataset, optionally restrict to the identifiers of the failed-videos file,
then optionally truncate to `max_videos`. -/
def buildWorkList (dataset : List Row) (args : Args) :
    Except (List Char) (List Row) := do
  let df := dropDuplicates dataset
  let df ←
    match args.failed_videos_file with
    | none => Except.ok df
    | some f => do
        let failed_video_ids ← load_failed_videos_from_file f
        Except.ok (df.filter (fun r => failed_video_ids.contains r.video_id))
  match args.max_videos with
  | none => Except.ok df
  | some n => Except.ok (df.take n)

/-- Mutable aggregation state of `main`'s completion loop: the three
counters and the `failed_videos` dictionary. -/
structure AggState where
  downloaded_count : Nat
  failed_count : Nat
  skipped_count : Nat
  failed_videos : List (List Char × List Char × Option (List Char))
deriving DecidableEq, Repr

/-- Python dict assignment `d[k] = v` on an insertion-ordered association
list: replace the value at an existing key in place, else append. -/
def dictInsert (k : List Char) (v : List Char × Option (List Char)) :
    List (List Char × List Char × Option (List Char)) →
      List (List Char × List Char × Option (List Char))
  | [] => [(k, v)]
  | (k', v') :: rest =>
    if k' = k then (k, v) :: rest else (k', v') :: dictInsert k v rest

/-- Content lookup in the association list modelling a Python dict. -/
def dictLookup (k : List Char) :
    List (List Char × List Char × Option (List Char)) →
      Option (List Char × Option (List Char))
  | [] => none
  | (k', v') :: rest => if k' = k then some v' else dictLookup k rest

/-- Body of the completion loop for one finished task. -/
def aggStep (st : AggState) (r : DLResult) : AggState :=
  match r with
  | (_, Status.success, _, _) =>
      { st with downloaded_count := st.downloaded_count + 1 }
  | (video_id, Status.failed, video_url, error_reason) =>
      { st with failed_count := st.failed_count + 1,
                failed_videos :=
                  dictInsert video_id (video_url, error_reason) st.failed_videos }
  | (_, Status.skipped, _, _) =>
      { st with skipped_count := st.skipped_count + 1 }

/-- Completion loop of `main` over the task results in arrival order. -/
def aggregate (results : List DLResult) (st : AggState) : AggState :=
  results.foldl aggStep st

/-- Helper for `splitext`: split a path after its last slash into
(directory part, basename), concatenating back to the path. -/
def splitBase (p : List Char) : List Char × List Char :=
  let sp := p.reverse.span (fun c => c ≠ '/')
  (sp.2.reverse, sp.1.reverse)

/-- Helper for `splitext`: split a string at its last dot, the second
component beginning with that dot; `none` when there is no dot. -/
def splitAtLastDot (s : List Char) : Option (List Char × List Char) :=
  match s.reverse.span (fun c => c ≠ '.') with
  | (_, []) => none
  | (revAfter, c :: revBefore) => some (revBefore.reverse, c :: revAfter.reverse)

/-- Model of `os.path.splitext`: the extension starts at the last dot of the
basename, except that leading dots of the basename never start an extension
(so ".bashrc" has none). -/
def splitext (p : List Char) : List Char × List Char :=
  match splitAtLastDot ((splitBase p).2.dropWhile (fun c => c = '.')) with
  | none => (p, [])
  | some (root, ext) =>
    ((splitBase p).1 ++ ((splitBase p).2.takeWhile (fun c => c = '.') ++ root), ext)

/-- One row of the CSV written by `save_failed_videos_to_file`. -/
structure FailedRec where
  video_id : List Char
  video_url : List Char
  error_reason : Option (List Char)
deriving DecidableEq, Repr

/-- Rows written by `save_failed_videos_to_file`: one record per entry of
the failed-videos dictionary, carrying identifier, URL and reason. -/
def save_failed_videos_to_file
    (failed_videos : List (List Char × List Char × Option (List Char))) :
    List FailedRec :=
  failed_videos.map (fun e => ⟨e.1, e.2.1, e.2.2⟩)

/-- Path the failures are saved to: the input path with its extension
replaced by `_retry_failed.csv` when this run consumed a failed-videos
file, else `failed_videos_{split}_{resolution}p.csv`. -/
def failedFilePath (args : Args) : List Char :=
  match args.failed_videos_file with
  | some f => (splitext f.path).1 ++ "_retry_failed.csv".data
  | none =>
      "failed_videos_".data ++ args.split ++ "_".data ++
        (Nat.repr args.resolution).data ++ "p.csv".data

/-- Observable result of a completed run of `main`. -/
structure RunResult where
  total_videos : Nat
  downloaded_count : Nat
  failed_count : Nat
  skipped_count : Nat
  failed_videos : List (List Char × List Char × Option (List Char))
  saved : Option (List Char × List FailedRec)
deriving DecidableEq, Repr

/-- Shallow embedding of `main`: work-list building, dispatch of one
download per row, aggregation of the outcomes, and persistence of the
failures. The completion order is modelled as the submission order (the
aggregation is proved order-independent separately). The result is a
configuration error exactly when the script raises before downloading. -/
def main (dataset : List Row) (args : Args) (fsExists : List Char → Bool)
    (subproc : List (List Char) → SubprocResult) :
    Except (List Char) RunResult := do
  let video_dir := pathJoin args.video_dir ((Nat.repr args.resolution).data ++ "p".data)
  let df ← buildWorkList dataset args
  let total_videos := df.length
  let outcomes := df.map (download_video fsExists subproc video_dir args)
  let final := aggregate outcomes ⟨0, 0, 0, []⟩
  let saved :=
    if final.failed_videos.isEmpty then none
    else some (failedFilePath args, save_failed_videos_to_file final.failed_videos)
  Except.ok
    { total_videos := total_videos
      downloaded_count := final.downloaded_count
      failed_count := final.failed_count
      skipped_count := final.skipped_count
      failed_videos := final.failed_videos
      saved := saved }

/-! Claim C2: deduplication. -/

/-- C2 (counterexample): the claim says the work list contains each unique
identifier exactly once even when the same identifier appears with two
different URLs; but `drop_duplicates` works on the (video_id, video_url)
pair, so the identifier `a`, appearing with URLs `u1` and `u2`, appears
twice in the deduplicated list. -/
theorem c2_counterexample :
    ((dropDuplicates [⟨"a".data, "u1".data⟩, ⟨"a".data, "u2".data⟩]).map
        Row.video_id).count "a".data = 2 := by
  decide

/-- C2 (amended): items are deduplicated by (identifier, URL) pair: the
work list contains each distinct pair exactly once (no duplicate rows, and
exactly the pairs of the input survive); the same identifier with two
different URLs yields two entries. -/
theorem c2_dedup_by_pair (l : List Row) :
    (dropDuplicates l).Nodup ∧ ∀ r : Row, r ∈ dropDuplicates l ↔ r ∈ l :=
  ⟨nodup_dropDuplicates l, fun r => mem_dropDuplicates l r⟩

/-! Claim C6: retry-subset filtering. -/

/-- C6: when a failed-videos file is supplied (and no truncation cap), the
work list is exactly the rows of the deduplicated reference list whose
identifier belongs to the loaded retry subset — the intersection of the
reference list with the subset. -/
theorem c6_retry_subset_filter (dataset : List Row) (args : Args)
    (f : FailedFile) (ids : List (List Char)) (wl : List Row)
    (hf : args.failed_videos_file = some f)
    (hmax : args.max_videos = none)
    (hids : load_failed_videos_from_file f = Except.ok ids)
    (hwl : buildWorkList dataset args = Except.ok wl) :
    ∀ r : Row, r ∈ wl ↔ r ∈ dropDuplicates dataset ∧ r.video_id ∈ ids := by
  intro r
  unfold buildWorkList at hwl
  rw [hf, hmax] at hwl
  simp only [hids, bind, Except.bind, Except.ok.injEq] at hwl
  subst hwl
  simp only [List.mem_filter, List.elem_iff]

/-- Concrete reference list with identifiers a, b, c, d (for the C6 witness). -/
def c6rows : List Row :=
  [⟨"a".data, "w".data⟩, ⟨"b".data, "w".data⟩, ⟨"c".data, "w".data⟩, ⟨"d".data, "w".data⟩]

/-- Concrete failure file holding identifiers a and c (for the C6 witness). -/
def c6file : FailedFile :=
  ⟨"failed.csv".data, ["video_id".data], [some "a".data, some "c".data]⟩

/-- Concrete arguments naming the failure file (for the C6 witness). -/
def c6args : Args :=
  ⟨"test".data, "d".data, 360, false, false, 1, 1, none, some c6file, none⟩

/-- C6 (witness): the reference list has identifiers a, b, c, d and the
failure file identifiers a and c; the filtered work list contains the row
for a and not the one for b. -/
theorem c6_retry_subset_filter_witness :
    ((⟨"a".data, "w".data⟩ : Row) ∈
          [(⟨"a".data, "w".data⟩ : Row), ⟨"c".data, "w".data⟩] ↔
        (⟨"a".data, "w".data⟩ : Row) ∈ dropDuplicates c6rows ∧
          ("a".data : List Char) ∈ ["a".data, "c".data]) ∧
    ((⟨"b".data, "w".data⟩ : Row) ∈
          [(⟨"a".data, "w".data⟩ : Row), ⟨"c".data, "w".data⟩] ↔
        (⟨"b".data, "w".data⟩ : Row) ∈ dropDuplicates c6rows ∧
          ("b".data : List Char) ∈ ["a".data, "c".data]) := by
  constructor
  · exact c6_retry_subset_filter c6rows c6args c6file ["a".data, "c".data]
      [⟨"a".data, "w".data⟩, ⟨"c".data, "w".data⟩] rfl rfl (by rfl) (by rfl)
      ⟨"a".data, "w".data⟩
  · exact c6_retry_subset_filter c6rows c6args c6file ["a".data, "c".data]
      [⟨"a".data, "w".data⟩, ⟨"c".data, "w".data⟩] rfl rfl (by rfl) (by rfl)
      ⟨"b".data, "w".data⟩

/-! Claim C7: max-count truncation. -/

/-- C7: setting the maximum-count cap to n makes the work list exactly the
first n items, in stable order, of the work list the same configuration
would produce without a cap; items beyond n enter neither the task list
nor the outcome list. -/
theorem c7_truncation (dataset : List Row) (args : Args) (n : Nat)
    (hmax : args.max_videos = some n) :
    buildWorkList dataset args =
      Except.map (fun l => l.take n)
        (buildWorkList dataset { args with max_videos := none }) := by
  unfold buildWorkList
  rw [hmax]
  cases hf : args.failed_videos_file with
  | none => simp [bind, Except.bind, Except.map]
  | some f =>
    cases hl : load_failed_videos_from_file f with
    | error e => simp [bind, Except.bind, Except.map, hl]
    | ok ids => simp [bind, Except.bind, Except.map, hl]

/-- Concrete work list of five ordered items (for the C7 witness). -/
def c7rows : List Row :=
  [⟨"a".data, "w".data⟩, ⟨"b".data, "w".data⟩, ⟨"c".data, "w".data⟩,
   ⟨"d".data, "w".data⟩, ⟨"e".data, "w".data⟩]

/-- Concrete arguments with a maximum-count cap of 2 (for the C7 witness). -/
def c7args : Args :=
  ⟨"test".data, "d".data, 360, false, false, 1, 1, some 2, none, none⟩

/-- C7 (witness): with a cap of 2 and a work list of 5 ordered items,
exactly the first 2 survive, in order. -/
theorem c7_truncation_witness :
    buildWorkList c7rows c7args =
      Except.map (fun l => l.take 2)
        (buildWorkList c7rows { c7args with max_videos := none }) ∧
    buildWorkList c7rows c7args =
      Except.ok [⟨"a".data, "w".data⟩, ⟨"b".data, "w".data⟩] := by
  constructor
  · exact c7_truncation c7rows c7args 2 rfl
  · rfl

theorem aggregate_cons (r : DLResult) (t : List DLResult) (st : AggState) :
    aggregate (r :: t) st = aggregate t (aggStep st r) := rfl

theorem aggStep_success (st : AggState) (id url : List Char)
    (reason : Option (List Char)) :
    aggStep st (id, Status.success, url, reason) =
      { st with downloaded_count := st.downloaded_count + 1 } := rfl

theorem aggStep_failed (st : AggState) (id url : List Char)
    (reason : Option (List Char)) :
    aggStep st (id, Status.failed, url, reason) =
      { st with failed_count := st.failed_count + 1,
                failed_videos := dictInsert id (url, reason) st.failed_videos } := rfl

theorem aggStep_skipped (st : AggState) (id url : List Char)
    (reason : Option (List Char)) :
    aggStep st (id, Status.skipped, url, reason) =
      { st with skipped_count := st.skipped_count + 1 } := rfl

theorem aggregate_counts (l : List DLResult) (st : AggState) :
    (aggregate l st).downloaded_count =
        st.downloaded_count + l.countP (fun r => r.2.1 == Status.success) ∧
      (aggregate l st).failed_count =
        st.failed_count + l.countP (fun r => r.2.1 == Status.failed) ∧
      (aggregate l st).skipped_count =
        st.skipped_count + l.countP (fun r => r.2.1 == Status.skipped) := by
  induction l generalizing st with
  | nil => simp [aggregate]
  | cons r t ih =>
    obtain ⟨id, status, url, reason⟩ := r
    rw [aggregate_cons]
    have h := ih (aggStep st ⟨id, status, url, reason⟩)
    cases status <;>
      simp only [aggStep, List.countP_cons] at h ⊢ <;> simp_all <;> omega

theorem aggregate_sum (l : List DLResult) (st : AggState) :
    (aggregate l st).downloaded_count + (aggregate l st).failed_count +
        (aggregate l st).skipped_count =
      st.downloaded_count + st.failed_count + st.skipped_count + l.length := by
  induction l generalizing st with
  | nil => simp [aggregate]
  | cons r t ih =>
    obtain ⟨id, status, url, reason⟩ := r
    rw [aggregate_cons]
    have h := ih (aggStep st ⟨id, status, url, reason⟩)
    cases status <;> simp only [aggStep, List.length_cons] at h ⊢ <;> omega

theorem dictInsert_ne_nil (k : List Char) (v : List Char × Option (List Char))
    (m : List (List Char × List Char × Option (List Char))) :
    dictInsert k v m ≠ [] := by
  cases m with
  | nil => simp [dictInsert]
  | cons p rest =>
    obtain ⟨k', v'⟩ := p
    by_cases h : k' = k <;> simp [dictInsert, h]

theorem aggregate_failed_videos_nil (l : List DLResult) (st : AggState) :
    (aggregate l st).failed_videos = [] ↔
      st.failed_videos = [] ∧ l.countP (fun r => r.2.1 == Status.failed) = 0 := by
  induction l generalizing st with
  | nil => simp [aggregate]
  | cons r t ih =>
    obtain ⟨id, status, url, reason⟩ := r
    rw [aggregate_cons]
    have h := ih (aggStep st ⟨id, status, url, reason⟩)
    cases status with
    | success =>
      simp only [aggStep_success] at h ⊢
      refine h.trans ?_
      simp [List.countP_cons]
    | skipped =>
      simp only [aggStep_skipped] at h ⊢
      refine h.trans ?_
      simp [List.countP_cons]
    | failed =>
      simp only [aggStep_failed] at h ⊢
      refine h.trans ?_
      simp [List.countP_cons, dictInsert_ne_nil]

theorem countP_status_sum (l : List DLResult) :
    l.countP (fun r => r.2.1 == Status.success) +
        l.countP (fun r => r.2.1 == Status.failed) +
        l.countP (fun r => r.2.1 == Status.skipped) = l.length := by
  induction l with
  | nil => simp
  | cons r t ih =>
    obtain ⟨id, status, url, reason⟩ := r
    cases status <;> simp [List.countP_cons] <;> omega

/-! Claim C1: outcome counting invariant. -/

/-- C1: on every completed run, Success + Failed + Skipped equals the
number of tasks submitted, which equals the size of the deduplicated (and
possibly filtered/truncated) work list; each work-list item yields exactly
one outcome. (In this code no item is skipped during list-building — the
existence check runs inside each task — so the initial skip count is 0.) -/
theorem c1_outcome_counts (dataset : List Row) (args : Args)
    (fsExists : List Char → Bool) (subproc : List (List Char) → SubprocResult)
    (res : RunResult) (wl : List Row)
    (hm : main dataset args fsExists subproc = Except.ok res)
    (hw : buildWorkList dataset args = Except.ok wl) :
    res.total_videos = wl.length ∧
    res.downloaded_count + res.failed_count + res.skipped_count = wl.length ∧
    (wl.map (download_video fsExists subproc
        (pathJoin args.video_dir ((Nat.repr args.resolution).data ++ "p".data))
        args)).length = wl.length := by
  unfold main at hm
  rw [hw] at hm
  simp only [bind, Except.bind, Except.ok.injEq] at hm
  subst hm
  refine ⟨rfl, ?_, List.length_map _ _⟩
  have h := aggregate_sum
    (wl.map (download_video fsExists subproc
      (pathJoin args.video_dir ((Nat.repr args.resolution).data ++ "p".data)) args))
    ⟨0, 0, 0, []⟩
  simpa [List.length_map] using h

/-- C1 (witness): a one-item run whose download succeeds has counts
1 + 0 + 0 = 1 = the size of the work list, with one outcome per item. -/
theorem c1_outcome_counts_witness :
    (RunResult.mk 1 1 0 0 [] none).total_videos =
        [(⟨"a".data, "ua".data⟩ : Row)].length ∧
      (RunResult.mk 1 1 0 0 [] none).downloaded_count +
          (RunResult.mk 1 1 0 0 [] none).failed_count +
          (RunResult.mk 1 1 0 0 [] none).skipped_count =
        [(⟨"a".data, "ua".data⟩ : Row)].length ∧
      ([(⟨"a".data, "ua".data⟩ : Row)].map (download_video (fun _ => false)
          (fun _ => ⟨0, []⟩)
          (pathJoin "d".data ((Nat.repr 360).data ++ "p".data))
          ⟨"test".data, "d".data, 360, false, false, 1, 1, none, none, none⟩)).length =
        [(⟨"a".data, "ua".data⟩ : Row)].length :=
  c1_outcome_counts [⟨"a".data, "ua".data⟩]
    ⟨"test".data, "d".data, 360, false, false, 1, 1, none, none, none⟩
    (fun _ => false) (fun _ => ⟨0, []⟩)
    ⟨1, 1, 0, 0, [], none⟩ [⟨"a".data, "ua".data⟩] (by rfl) (by rfl)

/-! Claim C4: exit code policy. -/

/-- C4: the run fails (nonzero exit through an uncaught exception) exactly
when a retry-input file was supplied whose columns lack `video_id`; in
particular it completes with exit code 0 for every subprocess oracle, so
per-item download failures never escape the dispatcher. -/
theorem c4_exit_code (dataset : List Row) (args : Args)
    (fsExists : List Char → Bool) (subproc : List (List Char) → SubprocResult) :
    (∃ e, main dataset args fsExists subproc = Except.error e) ↔
      ∃ f, args.failed_videos_file = some f ∧ "video_id".data ∉ f.columns := by
  unfold main buildWorkList load_failed_videos_from_file
  cases hf : args.failed_videos_file with
  | none =>
    cases hmax : args.max_videos <;> simp [bind, Except.bind]
  | some f =>
    by_cases hc : "video_id".data ∈ f.columns
    · cases hmax : args.max_videos <;> simp [bind, Except.bind, hc]
    · simp [bind, Except.bind, hc]

/-! Claim C3: skip-existing handling. -/

/-- Concrete arguments with skip-existing enabled (for C3). -/
def c3args : Args :=
  ⟨"test".data, "d".data, 360, true, false, 1, 1, none, none, none⟩

/-- C3 (counterexample): the claim says an identifier whose output already
exists never produces a Task when skip-existing is enabled (excluded during
work-list building). In this code the work list still contains the row
even when every path exists — the task is submitted and only its execution
returns Skipped: the run reports total 1, skipped 1. -/
theorem c3_counterexample :
    buildWorkList [⟨"a".data, "ua".data⟩] c3args =
        Except.ok [⟨"a".data, "ua".data⟩] ∧
      main [⟨"a".data, "ua".data⟩] c3args (fun _ => true) (fun _ => ⟨0, []⟩) =
        Except.ok ⟨1, 0, 0, 1, [], none⟩ :=
  ⟨rfl, rfl⟩

/-- C3 (amended): work-list building ignores skip-existing and prior
existence, so the identifier still produces a Task; with skip-existing
enabled and the computed output path existing, that Task's execution
returns a Skipped outcome without invoking the downloader; with
skip-existing disabled, the download subprocess runs regardless of prior
existence and the outcome follows its exit code. -/
theorem c3_skip_inside_task (fsExists : List Char → Bool)
    (subproc subproc' : List (List Char) → SubprocResult)
    (video_dir : List Char) (args : Args) (row : Row) :
    (fsExists (videoPath video_dir row) = true ∧ args.skip_existing = true →
        download_video fsExists subproc video_dir args row =
            (row.video_id, Status.skipped, row.video_url, none) ∧
          download_video fsExists subproc video_dir args row =
            download_video fsExists subproc' video_dir args row) ∧
    (args.skip_existing = false →
        download_video fsExists subproc video_dir args row =
          (if (subproc (buildCmd args (videoPath video_dir row) row.video_url)).returncode = 0
            then (row.video_id, Status.success, row.video_url, none)
            else (row.video_id, Status.failed, row.video_url,
              extract_error_reason
                (subproc (buildCmd args (videoPath video_dir row) row.video_url))))) ∧
    (∀ dataset : List Row, ∀ b : Bool,
        buildWorkList dataset { args with skip_existing := b } =
          buildWorkList dataset args) := by
  refine ⟨?_, ?_, ?_⟩
  · rintro ⟨hex, hskip⟩
    constructor <;> simp [download_video, hex, hskip]
  · intro hskip
    simp [download_video, hskip]
  · intro dataset b
    rfl

/-- C3 (witness): with skip-existing on and an existing output, the task
for identifier a returns a Skipped outcome. -/
theorem c3_skip_inside_task_witness :
    download_video (fun _ => true) (fun _ => ⟨0, []⟩) "d".data c3args
        ⟨"a".data, "ua".data⟩ =
      ("a".data, Status.skipped, "ua".data, none) :=
  ((c3_skip_inside_task (fun _ => true) (fun _ => ⟨0, []⟩)
      (fun _ => ⟨1, "E".data⟩) "d".data c3args ⟨"a".data, "ua".data⟩).1
    ⟨rfl, rfl⟩).1

theorem containsSub_mem (needle hay : List Char)
    (h : containsSub needle hay = true) : ∀ c ∈ needle, c ∈ hay := by
  induction hay with
  | nil =>
    rw [containsSub, List.isEmpty_iff] at h
    subst h
    intro c hc
    exact absurd hc (List.not_mem_nil c)
  | cons a t ih =>
    rw [containsSub, Bool.or_eq_true] at h
    intro c hc
    rcases h with h | h
    · exact (List.isPrefixOf_iff_prefix.mp h).subset hc
    · exact List.mem_cons_of_mem a (ih h c hc)

theorem pyStrip_eq_nil (s : List Char) (h : pyStrip s = []) :
    ∀ c ∈ s, pyIsSpace c = true := by
  intro c hc
  unfold pyStrip at h
  rw [List.reverse_eq_nil_iff, List.dropWhile_eq_nil_iff] at h
  have hsplit := List.takeWhile_append_dropWhile pyIsSpace s
  rw [← hsplit] at hc
  rcases List.mem_append.mp hc with hm | hm
  · exact List.mem_takeWhile_imp hm
  · exact h c (List.mem_reverse.mpr hm)

theorem pyIsSpace_toLower (c : Char) (h : pyIsSpace c = true) :
    Char.toLower c = c := by
  unfold pyIsSpace at h
  simp only [Bool.or_eq_true, decide_eq_true_eq] at h
  rcases h with ((((rfl | rfl) | rfl) | rfl) | rfl) | rfl <;> decide

theorem hasErrorKeyword_strip_ne_nil (line : List Char)
    (h : hasErrorKeyword line = true) : pyStrip line ≠ [] := by
  intro hnil
  have hall := pyStrip_eq_nil line hnil
  unfold hasErrorKeyword at h
  simp only [Bool.or_eq_true] at h
  have hex : ∃ ch : Char, ch ∈ pyLower line ∧ pyIsSpace ch = false := by
    rcases h with ((h | h) | h) | h
    · exact ⟨'e', containsSub_mem _ _ h 'e' (by decide), by decide⟩
    · exact ⟨'u', containsSub_mem _ _ h 'u' (by decide), by decide⟩
    · exact ⟨'p', containsSub_mem _ _ h 'p' (by decide), by decide⟩
    · exact ⟨'d', containsSub_mem _ _ h 'd' (by decide), by decide⟩
  obtain ⟨ch, hch, hns⟩ := hex
  obtain ⟨c, hcl, htl⟩ := List.mem_map.mp hch
  have hsp := hall c hcl
  rw [pyIsSpace_toLower c hsp] at htl
  subst htl
  rw [hsp] at hns
  simp at hns

theorem fallbackLine_strip_ne_nil (line : List Char)
    (h : fallbackLine line = true) : (pyStrip line).take 200 ≠ [] := by
  rw [fallbackLine, Bool.and_eq_true] at h
  intro hnil
  rcases List.take_eq_nil_iff.mp hnil with h200 | hstrip
  · exact absurd h200 (by decide)
  · rw [hstrip] at h
    simp [List.isEmpty_nil] at h

theorem pyFalsy_none : pyFalsy none = true := rfl

theorem pyFalsy_some (s : List Char) : pyFalsy (some s) = s.isEmpty := rfl

theorem isEmpty_false_of_ne_nil {α : Type} (l : List α) (h : l ≠ []) :
    l.isEmpty = false := by
  cases l with
  | nil => exact absurd rfl h
  | cons a t => rfl

theorem scanKeyword_eq_find (l : List (List Char)) :
    scanKeyword l = (l.find? hasErrorKeyword).map pyStrip := by
  induction l with
  | nil => rfl
  | cons a t ih =>
    by_cases h : hasErrorKeyword a
    · simp [scanKeyword, List.find?_cons_of_pos, h]
    · simp [scanKeyword, List.find?_cons_of_neg, h, ih]

theorem scanFallback_eq_find (l : List (List Char)) :
    scanFallback l =
      (l.find? fallbackLine).map (fun line => (pyStrip line).take 200) := by
  induction l with
  | nil => rfl
  | cons a t ih =>
    by_cases h : fallbackLine a
    · simp [scanFallback, List.find?_cons_of_pos, h]
    · simp [scanFallback, List.find?_cons_of_neg, h, ih]

/-! Claim C5: failure reason extraction. -/

/-- C5: for a failed subprocess result, scanning the stderr lines from the
bottom: if some line contains `error`, `unavailable`, `private` or
`deleted` (case-insensitively), the reason is the bottom-most such line,
trimmed; otherwise, if some line is non-empty after trimming and does not
start with `[`, the reason is the bottom-most such line trimmed and
truncated to 200 characters; otherwise (in particular for empty stderr)
the reason is the marker "Unknown error". -/
theorem c5_reason_extraction (result : SubprocResult)
    (h : result.returncode ≠ 0) :
    (∀ line,
        (pySplitOn '\n' (pyStrip result.stderr)).reverse.find? hasErrorKeyword =
            some line →
          extract_error_reason result = some (pyStrip line)) ∧
    ((pySplitOn '\n' (pyStrip result.stderr)).reverse.find? hasErrorKeyword = none →
      ∀ line,
        (pySplitOn '\n' (pyStrip result.stderr)).reverse.find? fallbackLine =
            some line →
          extract_error_reason result = some ((pyStrip line).take 200)) ∧
    ((pySplitOn '\n' (pyStrip result.stderr)).reverse.find? hasErrorKeyword = none →
      (pySplitOn '\n' (pyStrip result.stderr)).reverse.find? fallbackLine = none →
        extract_error_reason result = some "Unknown error".data) := by
  have hnil : result.stderr = [] →
      (pySplitOn '\n' (pyStrip result.stderr)).reverse.find? hasErrorKeyword = none ∧
      (pySplitOn '\n' (pyStrip result.stderr)).reverse.find? fallbackLine = none := by
    intro hs
    rw [hs]
    constructor <;> decide
  refine ⟨?_, ?_, ?_⟩
  · intro line hline
    by_cases hs : result.stderr.isEmpty = true
    · rw [(hnil (List.isEmpty_iff.mp hs)).1] at hline
      exact absurd hline (by simp)
    · have hkw : hasErrorKeyword line = true := List.find?_some hline
      have hne := isEmpty_false_of_ne_nil _ (hasErrorKeyword_strip_ne_nil line hkw)
      unfold extract_error_reason
      rw [if_neg h, if_neg hs]
      simp only [scanKeyword_eq_find, hline, Option.map_some]
      simp [pyFalsy_some, hne]
  · intro hkw line hline
    by_cases hs : result.stderr.isEmpty = true
    · rw [(hnil (List.isEmpty_iff.mp hs)).2] at hline
      exact absurd hline (by simp)
    · have hfb : fallbackLine line = true := List.find?_some hline
      have hne := isEmpty_false_of_ne_nil _ (fallbackLine_strip_ne_nil line hfb)
      unfold extract_error_reason
      rw [if_neg h, if_neg hs]
      simp only [scanKeyword_eq_find, scanFallback_eq_find, hkw, hline,
        Option.map_none, Option.map_some]
      simp [pyFalsy_none, pyFalsy_some, hne]
  · intro hkw hfb
    unfold extract_error_reason
    rw [if_neg h]
    by_cases hs : result.stderr.isEmpty = true
    · rw [if_pos hs]
      simp [pyFalsy]
    · rw [if_neg hs]
      simp only [scanKeyword_eq_find, scanFallback_eq_find, hkw, hfb,
        Option.map_none]
      simp [pyFalsy]

/-- C5 (witness): stderr holding "ERROR: Video unavailable" among other
lines yields exactly that line as the reason. -/
theorem c5_reason_extraction_witness :
    extract_error_reason
        ⟨1, "warn\nERROR: Video unavailable\n[download] x".data⟩ =
      some "ERROR: Video unavailable".data :=
  (c5_reason_extraction ⟨1, "warn\nERROR: Video unavailable\n[download] x".data⟩
      (by decide)).1 "ERROR: Video unavailable".data (by decide)

/-! Claim C10: extracted reasons are always usable. -/

theorem falsyGuard_nonempty (er : Option (List Char)) :
    (if pyFalsy er = true then some "Unknown error".data else er) ≠ none ∧
      (if pyFalsy er = true then some "Unknown error".data else er) ≠
        some ([] : List Char) := by
  match er with
  | none => refine ⟨by simp [pyFalsy], by simp [pyFalsy]⟩
  | some [] => refine ⟨by simp [pyFalsy], by simp [pyFalsy]⟩
  | some (c :: t) => refine ⟨by simp [pyFalsy], by simp [pyFalsy]⟩

/-- C10: for every subprocess result with nonzero exit code, the extracted
reason is a present, non-empty string: never `None` and never `""`, so
every Failed outcome carries a usable reason. -/
theorem c10_reason_nonempty (result : SubprocResult)
    (h : result.returncode ≠ 0) :
    extract_error_reason result ≠ none ∧
      extract_error_reason result ≠ some ([] : List Char) := by
  unfold extract_error_reason
  rw [if_neg h]
  exact falsyGuard_nonempty _

/-- C10 (witness): a nonzero exit with empty stderr still yields a
non-empty reason (the fallback marker). -/
theorem c10_reason_nonempty_witness :
    extract_error_reason ⟨1, []⟩ ≠ none ∧
      extract_error_reason ⟨1, []⟩ ≠ some ([] : List Char) :=
  c10_reason_nonempty ⟨1, []⟩ (by decide)

theorem dropWhile_cons_head {α : Type} (p : α → Bool) (l : List α) (a : α)
    (t : List α) (h : l.dropWhile p = a :: t) : p a = false := by
  induction l with
  | nil => simp [List.dropWhile] at h
  | cons x xs ih =>
    rw [List.dropWhile] at h
    by_cases hx : p x = true
    · rw [hx] at h
      exact ih h
    · rw [Bool.not_eq_true] at hx
      rw [hx] at h
      simp only [List.cons.injEq] at h
      rw [← h.1]
      exact hx

theorem splitBase_recon (p : List Char) :
    (splitBase p).1 ++ (splitBase p).2 = p := by
  unfold splitBase
  rw [List.span_eq_take_drop]
  simp only
  rw [← List.reverse_append, List.takeWhile_append_dropWhile, List.reverse_reverse]

theorem splitAtLastDot_spec (s root ext : List Char)
    (h : splitAtLastDot s = some (root, ext)) :
    root ++ ext = s ∧ ext.head? = some '.' := by
  unfold splitAtLastDot at h
  rw [List.span_eq_take_drop] at h
  cases hd : s.reverse.dropWhile (fun c => c ≠ '.') with
  | nil => rw [hd] at h; simp at h
  | cons c revBefore =>
    rw [hd] at h
    simp only [Option.some.injEq, Prod.mk.injEq] at h
    have hc : (fun c => decide (c ≠ '.')) c = false :=
      dropWhile_cons_head _ s.reverse c revBefore hd
    simp only [decide_eq_false_iff_not, ne_eq, not_not] at hc
    subst hc
    have hrecon : s.reverse.takeWhile (fun c => c ≠ '.') ++ ('.' :: revBefore) = s.reverse := by
      rw [← hd]
      exact List.takeWhile_append_dropWhile _ _
    have h2 := congrArg List.reverse hrecon
    rw [List.reverse_append, List.reverse_cons, List.reverse_reverse,
      List.append_assoc, List.singleton_append] at h2
    constructor
    · rw [← h.1, ← h.2]
      exact h2
    · rw [← h.2]
      rfl

theorem splitext_spec (p : List Char) :
    (splitext p).1 ++ (splitext p).2 = p ∧
      ((splitext p).2 = [] ∨ (splitext p).2.head? = some '.') := by
  cases hdot : splitAtLastDot ((splitBase p).2.dropWhile (fun c => c = '.')) with
  | none =>
    unfold splitext
    rw [hdot]
    simp
  | some pr =>
    obtain ⟨root, ext⟩ := pr
    obtain ⟨hrecon, hhead⟩ := splitAtLastDot_spec _ root ext hdot
    unfold splitext
    rw [hdot]
    refine ⟨?_, Or.inr hhead⟩
    have hbase : (splitBase p).2.takeWhile (fun c => c = '.') ++
        (splitBase p).2.dropWhile (fun c => c = '.') = (splitBase p).2 :=
      List.takeWhile_append_dropWhile _ _
    calc (splitBase p).1 ++ ((splitBase p).2.takeWhile (fun c => c = '.') ++ root) ++ ext
        = (splitBase p).1 ++ ((splitBase p).2.takeWhile (fun c => c = '.') ++ (root ++ ext)) := by
          simp [List.append_assoc]
      _ = (splitBase p).1 ++ (splitBase p).2 := by rw [hrecon, hbase]
      _ = p := splitBase_recon p

theorem retry_save_path_ne (p : List Char) :
    (splitext p).1 ++ "_retry_failed.csv".data ≠ p := by
  intro heq
  obtain ⟨hrecon, hext⟩ := splitext_spec p
  nth_rewrite 2 [← hrecon] at heq
  have hsuffix := List.append_cancel_left heq
  rcases hext with hnil | hdot
  · rw [hnil] at hsuffix
    exact absurd hsuffix (by decide)
  · rw [← hsuffix] at hdot
    exact absurd hdot (by decide)

theorem failedFilePath_retry (args : Args) (f : FailedFile)
    (hf : args.failed_videos_file = some f) :
    failedFilePath args = (splitext f.path).1 ++ "_retry_failed.csv".data := by
  unfold failedFilePath
  rw [hf]

theorem report_spec (args : Args) (res : RunResult)
    (hsaved : res.saved =
      if res.failed_videos.isEmpty then none
      else some (failedFilePath args, save_failed_videos_to_file res.failed_videos))
    (hfc : res.failed_videos = [] ↔ res.failed_count = 0) :
    (res.saved.isSome ↔ 0 < res.failed_count) ∧
    (∀ p recs, res.saved = some (p, recs) →
        p = failedFilePath args ∧
        recs = save_failed_videos_to_file res.failed_videos ∧
        ∀ f, args.failed_videos_file = some f → p ≠ f.path) := by
  constructor
  · rw [hsaved]
    by_cases hfv : res.failed_videos = []
    · rw [hfv]
      simp only [List.isEmpty_nil, if_true, Option.isSome_none]
      have h0 := hfc.mp hfv
      simp [h0]
    · have hfe := isEmpty_false_of_ne_nil res.failed_videos hfv
      rw [hfe]
      simp only [Bool.false_eq_true, if_false, Option.isSome_some, true_iff]
      have h0 : ¬res.failed_count = 0 := fun h => hfv (hfc.mpr h)
      omega
  · intro p recs hps
    rw [hsaved] at hps
    by_cases hfv : res.failed_videos = []
    · rw [hfv] at hps
      simp at hps
    · have hfe := isEmpty_false_of_ne_nil res.failed_videos hfv
      rw [hfe] at hps
      simp only [Bool.false_eq_true, if_false, Option.some.injEq, Prod.mk.injEq] at hps
      refine ⟨hps.1.symm, hps.2.symm, ?_⟩
      intro f hf
      rw [← hps.1, failedFilePath_retry args f hf]
      exact retry_save_path_ne f.path

/-! Claim C8: persistence of the failed set. -/

/-- C8: on every completed run, a failure file is written if and only if
at least one Failed outcome occurred; it is written at the deterministic
path derived from the run's split and resolution, its rows carry
(identifier, URL, reason) straight from the failed-videos dictionary, and
when the run itself consumed a retry-input file the output path (the input
with its extension replaced by the distinct `_retry_failed.csv` suffix)
never equals the input path. -/
theorem c8_failed_persistence (dataset : List Row) (args : Args)
    (fsExists : List Char → Bool) (subproc : List (List Char) → SubprocResult)
    (res : RunResult)
    (hm : main dataset args fsExists subproc = Except.ok res) :
    (res.saved.isSome ↔ 0 < res.failed_count) ∧
    (∀ p recs, res.saved = some (p, recs) →
        p = failedFilePath args ∧
        recs = save_failed_videos_to_file res.failed_videos ∧
        ∀ f, args.failed_videos_file = some f → p ≠ f.path) := by
  unfold main at hm
  cases hw : buildWorkList dataset args with
  | error e =>
    rw [hw] at hm
    simp [bind, Except.bind] at hm
  | ok wl =>
    rw [hw] at hm
    simp only [bind, Except.bind, Except.ok.injEq] at hm
    subst hm
    refine report_spec args _ rfl ?_
    show (aggregate _ ⟨0, 0, 0, []⟩).failed_videos = [] ↔
      (aggregate _ ⟨0, 0, 0, []⟩).failed_count = 0
    rw [aggregate_failed_videos_nil, (aggregate_counts _ _).2.1]
    simp

/-- Concrete retry-input file (for the C8 witness). -/
def c8file : FailedFile :=
  ⟨"failed.csv".data, ["video_id".data], [some "a".data]⟩

/-- Concrete arguments consuming the retry-input file (for the C8 witness). -/
def c8args : Args :=
  ⟨"test".data, "d".data, 360, false, false, 1, 1, none, some c8file, none⟩

/-- Concrete run result of the C8 witness run: one video, one failure,
saved to the distinctly suffixed path. -/
def c8res : RunResult :=
  ⟨1, 0, 1, 0, [("a".data, "ua".data, some "ERROR: x".data)],
    some ("failed_retry_failed.csv".data,
      [⟨"a".data, "ua".data, some "ERROR: x".data⟩])⟩

/-- C8 (witness): a retry run with one failing download persists exactly
when the failure occurred, and the output path differs from the consumed
input path. -/
theorem c8_failed_persistence_witness :
    (c8res.saved.isSome ↔ 0 < c8res.failed_count) ∧
      "failed_retry_failed.csv".data ≠ c8file.path := by
  have h := c8_failed_persistence [⟨"a".data, "ua".data⟩] c8args
    (fun _ => false) (fun _ => ⟨1, "ERROR: x".data⟩) c8res (by rfl)
  exact ⟨h.1,
    ((h.2 "failed_retry_failed.csv".data
        [⟨"a".data, "ua".data, some "ERROR: x".data⟩] (by rfl)).2.2 c8file rfl)⟩

theorem dictLookup_dictInsert (k k' : List Char)
    (v : List Char × Option (List Char))
    (m : List (List Char × List Char × Option (List Char))) :
    dictLookup k' (dictInsert k v m) =
      if k' = k then some v else dictLookup k' m := by
  induction m with
  | nil =>
    by_cases h : k' = k
    · subst h
      simp [dictInsert, dictLookup]
    · have h2 : ¬k = k' := fun hh => h hh.symm
      simp [dictInsert, dictLookup, h, h2]
  | cons p rest ih =>
    obtain ⟨k0, v0⟩ := p
    by_cases h0 : k0 = k
    · subst h0
      rw [dictInsert, if_pos rfl]
      by_cases h' : k' = k0
      · subst h'
        simp [dictLookup]
      · have h2 : ¬k0 = k' := fun hh => h' hh.symm
        simp [dictLookup, h', h2]
    · rw [dictInsert, if_neg h0]
      rw [dictLookup, ih, dictLookup]
      split_ifs <;> simp_all

/-- Bottom-most failed entry for a key: the value carried by the last (in
arrival order) failed outcome with identifier k. -/
def lastFailed (k : List Char) :
    List DLResult → Option (List Char × Option (List Char))
  | [] => none
  | (id, Status.failed, url, reason) :: t =>
    match lastFailed k t with
    | some v => some v
    | none => if id = k then some (url, reason) else none
  | _ :: t => lastFailed k t

theorem aggregate_lookup (l : List DLResult) (st : AggState) (k : List Char) :
    dictLookup k (aggregate l st).failed_videos =
      match lastFailed k l with
      | some v => some v
      | none => dictLookup k st.failed_videos := by
  induction l generalizing st with
  | nil => rfl
  | cons r t ih =>
    obtain ⟨id, status, url, reason⟩ := r
    rw [aggregate_cons]
    cases status with
    | success =>
      rw [ih]
      cases hl : lastFailed k t <;> simp [lastFailed, hl, aggStep_success]
    | skipped =>
      rw [ih]
      cases hl : lastFailed k t <;> simp [lastFailed, hl, aggStep_skipped]
    | failed =>
      rw [ih]
      simp only [aggStep_failed]
      cases hl : lastFailed k t with
      | some v => simp [lastFailed, hl]
      | none =>
        simp only [lastFailed, hl, dictLookup_dictInsert]
        by_cases hk : id = k
        · subst hk
          simp
        · have h2 : ¬k = id := fun hh => hk hh.symm
          simp [hk, h2]

theorem lastFailed_success (k id url : List Char) (reason : Option (List Char))
    (t : List DLResult) :
    lastFailed k ((id, Status.success, url, reason) :: t) = lastFailed k t := rfl

theorem lastFailed_skipped (k id url : List Char) (reason : Option (List Char))
    (t : List DLResult) :
    lastFailed k ((id, Status.skipped, url, reason) :: t) = lastFailed k t := rfl

theorem lastFailed_failed (k id url : List Char) (reason : Option (List Char))
    (t : List DLResult) :
    lastFailed k ((id, Status.failed, url, reason) :: t) =
      match lastFailed k t with
      | some v => some v
      | none => if id = k then some (url, reason) else none := rfl

/-- The identifiers of the failed outcomes are pairwise distinct. -/
def failedIdsNodup (l : List DLResult) : Prop :=
  ((l.filter (fun r => r.2.1 == Status.failed)).map (fun r => r.1)).Nodup

theorem failedIdsNodup_tail (x : DLResult) (t : List DLResult)
    (h : failedIdsNodup (x :: t)) : failedIdsNodup t := by
  unfold failedIdsNodup at h ⊢
  rw [List.filter_cons] at h
  by_cases hx : (x.2.1 == Status.failed) = true
  · rw [if_pos hx, List.map_cons] at h
    exact (List.nodup_cons.mp h).2
  · rw [if_neg hx] at h
    exact h

theorem failedIdsNodup_perm (l₁ l₂ : List DLResult) (h : l₁.Perm l₂)
    (hnd : failedIdsNodup l₁) : failedIdsNodup l₂ :=
  (((h.filter _).map _).nodup_iff).mp hnd

theorem lastFailed_perm (l₁ l₂ : List DLResult) (h : l₁.Perm l₂)
    (hnd : failedIdsNodup l₁) (k : List Char) :
    lastFailed k l₁ = lastFailed k l₂ := by
  induction h with
  | nil => rfl
  | cons x hp ih =>
    rename_i t₁ t₂
    obtain ⟨id, status, url, reason⟩ := x
    have hndt := failedIdsNodup_tail _ _ hnd
    cases status with
    | success => rw [lastFailed_success, lastFailed_success, ih hndt]
    | skipped => rw [lastFailed_skipped, lastFailed_skipped, ih hndt]
    | failed => rw [lastFailed_failed, lastFailed_failed, ih hndt]
  | swap x y l =>
    obtain ⟨idx, sx, ux, rx⟩ := x
    obtain ⟨idy, sy, uy, ry⟩ := y
    cases sx with
    | success =>
      cases sy <;>
        simp only [lastFailed_success, lastFailed_skipped, lastFailed_failed]
    | skipped =>
      cases sy <;>
        simp only [lastFailed_success, lastFailed_skipped, lastFailed_failed]
    | failed =>
      cases sy with
      | success =>
        simp only [lastFailed_success, lastFailed_failed]
      | skipped =>
        simp only [lastFailed_skipped, lastFailed_failed]
      | failed =>
        have hne : idy ≠ idx := by
          unfold failedIdsNodup at hnd
          rw [List.filter_cons, List.filter_cons] at hnd
          simp only [beq_self_eq_true, if_true, List.map_cons] at hnd
          exact fun hh => (List.nodup_cons.mp hnd).1
            (hh ▸ List.mem_cons_self _ _)
        simp only [lastFailed_failed]
        cases hl : lastFailed k l with
        | some w => simp
        | none =>
          by_cases hx : idx = k
          · by_cases hy : idy = k
            · exact absurd (hy.trans hx.symm) hne
            · simp [hx, hy]
          · by_cases hy : idy = k
            · simp [hx, hy]
            · simp [hx, hy]
  | trans h12 h23 ih12 ih23 =>
    exact (ih12 hnd).trans (ih23 (failedIdsNodup_perm _ _ h12 hnd))

/-! Claim C9: order-independence of the aggregation. -/

/-- First failed outcome for identifier a (C9 counterexample data). -/
def c9o1 : DLResult := ("a".data, Status.failed, "u1".data, some "r1".data)

/-- Second failed outcome for the same identifier a with a different URL
and reason (C9 counterexample data). -/
def c9o2 : DLResult := ("a".data, Status.failed, "u2".data, some "r2".data)

/-- C9 (counterexample): the claim says the failed map is the same for
every arrival order. With two failed outcomes sharing identifier a
(reachable, since deduplication is by (id, URL) pair), the dictionary is
last-write-wins: the two arrival orders give different maps, differing
even at the key a. -/
theorem c9_counterexample :
    ([c9o1, c9o2] : List DLResult).Perm [c9o2, c9o1] ∧
      (aggregate [c9o1, c9o2] ⟨0, 0, 0, []⟩).failed_videos ≠
        (aggregate [c9o2, c9o1] ⟨0, 0, 0, []⟩).failed_videos ∧
      dictLookup "a".data (aggregate [c9o1, c9o2] ⟨0, 0, 0, []⟩).failed_videos ≠
        dictLookup "a".data (aggregate [c9o2, c9o1] ⟨0, 0, 0, []⟩).failed_videos :=
  ⟨List.Perm.swap c9o2 c9o1 [], by decide, by decide⟩

/-- C9 (amended): the three aggregate counts are the same for every
arrival order of the outcomes; the failed map is also order-independent
(same content at every key) provided the failed outcomes carry pairwise
distinct identifiers — with duplicate identifiers it is last-write-wins
and may depend on the order. -/
theorem c9_order_invariance (l₁ l₂ : List DLResult) (h : l₁.Perm l₂) :
    (aggregate l₁ ⟨0, 0, 0, []⟩).downloaded_count =
        (aggregate l₂ ⟨0, 0, 0, []⟩).downloaded_count ∧
      (aggregate l₁ ⟨0, 0, 0, []⟩).failed_count =
        (aggregate l₂ ⟨0, 0, 0, []⟩).failed_count ∧
      (aggregate l₁ ⟨0, 0, 0, []⟩).skipped_count =
        (aggregate l₂ ⟨0, 0, 0, []⟩).skipped_count ∧
      (failedIdsNodup l₁ →
        ∀ k, dictLookup k (aggregate l₁ ⟨0, 0, 0, []⟩).failed_videos =
          dictLookup k (aggregate l₂ ⟨0, 0, 0, []⟩).failed_videos) := by
  obtain ⟨hd₁, hf₁, hs₁⟩ := aggregate_counts l₁ ⟨0, 0, 0, []⟩
  obtain ⟨hd₂, hf₂, hs₂⟩ := aggregate_counts l₂ ⟨0, 0, 0, []⟩
  refine ⟨?_, ?_, ?_, ?_⟩
  · rw [hd₁, hd₂, h.countP_eq]
  · rw [hf₁, hf₂, h.countP_eq]
  · rw [hs₁, hs₂, h.countP_eq]
  · intro hnd k
    rw [aggregate_lookup, aggregate_lookup, lastFailed_perm l₁ l₂ h hnd k]

/-- C9 (witness): two outcomes with distinct identifiers, aggregated in
both arrival orders, give the same counts and the same failed map at both
keys. -/
theorem c9_order_invariance_witness :
    (aggregate [("a".data, Status.failed, "u".data, some "r".data),
        ("b".data, Status.success, "w".data, none)] ⟨0, 0, 0, []⟩).downloaded_count =
      (aggregate [("b".data, Status.success, "w".data, none),
        ("a".data, Status.failed, "u".data, some "r".data)] ⟨0, 0, 0, []⟩).downloaded_count ∧
    (aggregate [("a".data, Status.failed, "u".data, some "r".data),
        ("b".data, Status.success, "w".data, none)] ⟨0, 0, 0, []⟩).failed_count =
      (aggregate [("b".data, Status.success, "w".data, none),
        ("a".data, Status.failed, "u".data, some "r".data)] ⟨0, 0, 0, []⟩).failed_count ∧
    dictLookup "a".data
        (aggregate [("a".data, Status.failed, "u".data, some "r".data),
          ("b".data, Status.success, "w".data, none)] ⟨0, 0, 0, []⟩).failed_videos =
      dictLookup "a".data
        (aggregate [("b".data, Status.success, "w".data, none),
          ("a".data, Status.failed, "u".data, some "r".data)] ⟨0, 0, 0, []⟩).failed_videos := by
  have h := c9_order_invariance
    [("a".data, Status.failed, "u".data, some "r".data),
      ("b".data, Status.success, "w".data, none)]
    [("b".data, Status.success, "w".data, none),
      ("a".data, Status.failed, "u".data, some "r".data)]
    (List.Perm.swap ("b".data, Status.success, "w".data, none)
      ("a".data, Status.failed, "u".data, some "r".data) [])
  exact ⟨h.1, h.2.1, h.2.2.2 (by unfold failedIdsNodup; decide) "a".data⟩

end DownloadVideos
